import Mathlib

/-
Verification of the archives-lite favorites/gallery logic.

The TypeScript sources embedded here:
  src/src/pages/Favorites.tsx  (favorites store, filter/sort, export, import)
  src/src/pages/Gallery.tsx    (toggleFav, pagination controller)
  src/src/pages/PhotoDetail.tsx (route-id validation, toggleFav)

Modelling conventions:
  - A JS object keyed by numeric photo ids (`type FavStore = { [id: number]: Photo }`)
    is embedded as an association list `List (Int × α)` kept strictly sorted
    ascending by key.  This is faithful to JS semantics: object keys that are
    canonical array indices are enumerated in ascending numeric order by
    `Object.values`, spread (`{ ...s, [k]: v }`) keeps that canonical order,
    and `delete` removes the key leaving the rest untouched.
  - JS numbers are embedded as `Int` where the code only handles integers
    (photo ids, page sizes) and as `Rat` where fractional route parameters
    matter.  Floating-point rounding is outside the model.
  - Functions that can fail return `Option`/`Except`.
-/

/-- Photo record, from src/src/types (fields as used by the pages):
`{ id, albumId, title, url, thumbnailUrl }`. -/
structure Photo where
  id : Int
  albumId : Int
  title : String
  url : String
  thumbnailUrl : String
deriving DecidableEq, Repr

/-- The favorites store: JS object keyed by numeric id, embedded as an
association list in canonical (strictly ascending key) order. -/
abbrev FavStore (α : Type) := List (Int × α)

/-- Lookup `s[k]` on the JS object. -/
def favLookup {α : Type} : FavStore α → Int → Option α
  | [], _ => none
  | (k0, v0) :: tl, k => if k = k0 then some v0 else favLookup tl k

/-- `{ ...s, [k]: v }` on a canonically ordered object: insert or replace,
keeping ascending key order (JS enumerates array-index keys numerically). -/
def favInsert {α : Type} (k : Int) (v : α) : FavStore α → FavStore α
  | [] => [(k, v)]
  | (k0, v0) :: tl =>
    if k < k0 then (k, v) :: (k0, v0) :: tl
    else if k = k0 then (k, v) :: tl
    else (k0, v0) :: favInsert k v tl

/-- `delete s[k]` on the JS object. -/
def favErase {α : Type} (k : Int) : FavStore α → FavStore α
  | [] => []
  | (k0, v0) :: tl => if k = k0 then tl else (k0, v0) :: favErase k tl

/-- `Object.values(s)`: values in canonical key order. -/
def favValues {α : Type} (s : FavStore α) : List α := s.map Prod.snd

/-- Representation invariant of the embedding: keys strictly ascending
(every key of the tail is above the head key, recursively). -/
def favSortedB {α : Type} : FavStore α → Bool
  | [] => true
  | (k0, _) :: tl => (tl.all fun kv => decide (k0 < kv.1)) && favSortedB tl

/-- Store invariant maintained by the app: canonical order plus every entry
is stored under its own photo id (toggle and import both key by `.id`). -/
def favWF (s : FavStore Photo) : Bool :=
  favSortedB s && s.all fun kv => kv.2.id = kv.1

/-- `toggleFav` from src/src/pages/Gallery.tsx line 24 (same code in
PhotoDetail.tsx line 70):
`setFavs((s) => (s[p.id] ? (delete s[p.id], { ...s }) : { ...s, [p.id]: p }))`.
A present photo record is always truthy, so the condition is key presence. -/
def toggleFav (s : FavStore Photo) (p : Photo) : FavStore Photo :=
  if (favLookup s p.id).isSome then favErase p.id s else favInsert p.id p s

-- ### Association-list lemmas

theorem favLookup_insert {α : Type} (k : Int) (v : α) (s : FavStore α) (k' : Int) :
    favLookup (favInsert k v s) k' = if k' = k then some v else favLookup s k' := by
  induction s with
  | nil => simp [favInsert, favLookup]
  | cons hd tl ih =>
    obtain ⟨k0, v0⟩ := hd
    by_cases h1 : k < k0
    · simp only [favInsert, if_pos h1, favLookup]
    · by_cases h2 : k = k0
      · subst h2
        simp only [favInsert, if_neg h1, if_pos rfl, favLookup]
        by_cases h3 : k' = k <;> simp [h3]
      · simp only [favInsert, if_neg h1, if_neg h2, favLookup, ih]
        by_cases h3 : k' = k0
        · have h4 : ¬ k' = k := fun hh => h2 (hh ▸ h3)
          rw [if_pos h3, if_neg h4, if_pos h3]
        · rw [if_neg h3, if_neg h3]

theorem favSortedB_tail {α : Type} {k0 : Int} {v0 : α} {tl : FavStore α}
    (h : favSortedB ((k0, v0) :: tl) = true) : favSortedB tl = true := by
  simp only [favSortedB, Bool.and_eq_true] at h
  exact h.2

theorem favSortedB_head_lt {α : Type} {k0 : Int} {v0 : α} {tl : FavStore α}
    (h : favSortedB ((k0, v0) :: tl) = true) {k : Int} {v : α}
    (hm : (k, v) ∈ tl) : k0 < k := by
  simp only [favSortedB, Bool.and_eq_true, List.all_eq_true] at h
  simpa using h.1 (k, v) hm

theorem favLookup_mem {α : Type} {s : FavStore α} {k : Int} {v : α}
    (h : favLookup s k = some v) : (k, v) ∈ s := by
  induction s with
  | nil => simp [favLookup] at h
  | cons hd tl ih =>
    obtain ⟨k0, v0⟩ := hd
    simp only [favLookup] at h
    by_cases h1 : k = k0
    · subst h1
      rw [if_pos rfl] at h
      injection h with h2
      subst h2
      exact List.mem_cons_self _ _
    · rw [if_neg h1] at h
      exact List.mem_cons_of_mem _ (ih h)

theorem favLookup_of_mem {α : Type} {s : FavStore α} (hs : favSortedB s = true)
    {k : Int} {v : α} (hm : (k, v) ∈ s) : favLookup s k = some v := by
  induction s with
  | nil => simp at hm
  | cons hd tl ih =>
    obtain ⟨k0, v0⟩ := hd
    rcases List.mem_cons.mp hm with h | h
    · rw [Prod.mk.injEq] at h
      obtain ⟨h1, h2⟩ := h
      subst h1; subst h2
      simp [favLookup]
    · have hlt := favSortedB_head_lt hs h
      have : k ≠ k0 := by omega
      simp only [favLookup, if_neg this]
      exact ih (favSortedB_tail hs) h

theorem favLookup_none_of_head {α : Type} {k0 : Int} {v0 : α} {tl : FavStore α}
    (h : favSortedB ((k0, v0) :: tl) = true) : favLookup tl k0 = none := by
  cases hl : favLookup tl k0 with
  | none => rfl
  | some v =>
    have := favSortedB_head_lt h (favLookup_mem hl)
    omega

theorem favLookup_erase_self {α : Type} {s : FavStore α} (hs : favSortedB s = true)
    (k : Int) : favLookup (favErase k s) k = none := by
  induction s with
  | nil => simp [favErase, favLookup]
  | cons hd tl ih =>
    obtain ⟨k0, v0⟩ := hd
    by_cases h1 : k = k0
    · subst h1
      simp only [favErase, if_pos rfl]
      exact favLookup_none_of_head hs
    · simp only [favErase, if_neg h1, favLookup, if_neg h1]
      exact ih (favSortedB_tail hs)

theorem favErase_insert {α : Type} {s : FavStore α} {k : Int} (v : α)
    (h : favLookup s k = none) : favErase k (favInsert k v s) = s := by
  induction s with
  | nil => simp [favInsert, favErase]
  | cons hd tl ih =>
    obtain ⟨k0, v0⟩ := hd
    simp only [favLookup] at h
    by_cases h1 : k = k0
    · simp [if_pos h1] at h
    · rw [if_neg h1] at h
      by_cases h2 : k < k0
      · simp [favInsert, if_pos h2, favErase, h1]
      · simp only [favInsert, if_neg h2, if_neg h1, favErase, if_neg h1]
        rw [ih h]

theorem favInsert_erase {α : Type} {s : FavStore α} (hs : favSortedB s = true)
    {k : Int} {v : α} (h : favLookup s k = some v) :
    favInsert k v (favErase k s) = s := by
  induction s with
  | nil => simp [favLookup] at h
  | cons hd tl ih =>
    obtain ⟨k0, v0⟩ := hd
    simp only [favLookup] at h
    by_cases h1 : k = k0
    · subst h1
      rw [if_pos rfl] at h
      injection h with h2
      subst h2
      simp only [favErase, if_pos rfl]
      cases tl with
      | nil => simp [favInsert]
      | cons hd2 tl2 =>
        obtain ⟨k1, v1⟩ := hd2
        have hlt : k < k1 := favSortedB_head_lt hs (List.mem_cons_self _ _)
        simp [favInsert, if_pos hlt]
    · rw [if_neg h1] at h
      have hlt : k0 < k := favSortedB_head_lt hs (favLookup_mem h)
      have h2 : ¬ k < k0 := by omega
      simp only [favErase, if_neg h1, favInsert, if_neg h2, if_neg h1]
      rw [ih (favSortedB_tail hs) h]

theorem favInsert_lookup_eq {α : Type} {s : FavStore α} (hs : favSortedB s = true)
    {k : Int} {v : α} (h : favLookup s k = some v) : favInsert k v s = s := by
  induction s with
  | nil => simp [favLookup] at h
  | cons hd tl ih =>
    obtain ⟨k0, v0⟩ := hd
    simp only [favLookup] at h
    by_cases h1 : k = k0
    · subst h1
      rw [if_pos rfl] at h
      injection h with h2
      subst h2
      simp [favInsert]
    · rw [if_neg h1] at h
      have hlt : k0 < k := favSortedB_head_lt hs (favLookup_mem h)
      have h2 : ¬ k < k0 := by omega
      simp only [favInsert, if_neg h2, if_neg h1]
      rw [ih (favSortedB_tail hs) h]

-- ### Concrete photos used in examples and counterexamples

/-- A concrete photo with id 1. -/
def catPhoto : Photo :=
  { id := 1, albumId := 1, title := "Cat", url := "https://p/1", thumbnailUrl := "https://t/1" }

/-- A concrete photo with id 2. -/
def dogPhoto : Photo :=
  { id := 2, albumId := 1, title := "Dog", url := "https://p/2", thumbnailUrl := "https://t/2" }

/-- A different photo record carrying the same id as `catPhoto`. -/
def catPhotoVariant : Photo :=
  { id := 1, albumId := 9, title := "Other", url := "https://p/9", thumbnailUrl := "https://t/9" }

-- ### C1: double toggle

/-- C1 (counterexample): the claim `toggle (toggle S p) p == S` fails for every
store that maps `p.id` to a photo record other than `p`: the first toggle
removes the stored record and the second inserts `p`, so the store ends up
content-different from `S`. -/
theorem toggleFav_double_counterexample :
    toggleFav (toggleFav [((1 : Int), catPhotoVariant)] catPhoto) catPhoto
        = [((1 : Int), catPhoto)]
      ∧ toggleFav (toggleFav [((1 : Int), catPhotoVariant)] catPhoto) catPhoto
        ≠ [((1 : Int), catPhotoVariant)]
      ∧ favWF [((1 : Int), catPhotoVariant)] = true := by
  refine ⟨by decide, by decide, by decide⟩

/-- C1 (amended): toggling twice with the same photo `p` returns a store
content-equal to `S` whenever `p.id` is absent from `S`, or `S` maps `p.id`
to `p` itself (which the app invariant guarantees, since both the toggle
and the importer store each record under its own id).  If `p.id` is present the first
toggle removes it and the second re-inserts `p`; otherwise the first inserts
`p` and the second removes it. -/
theorem toggleFav_toggleFav (s : FavStore Photo) (p : Photo)
    (hs : favSortedB s = true)
    (h : favLookup s p.id = none ∨ favLookup s p.id = some p) :
    toggleFav (toggleFav s p) p = s := by
  rcases h with h | h
  · have h1 : toggleFav s p = favInsert p.id p s := by
      simp [toggleFav, h]
    rw [h1]
    have h2 : favLookup (favInsert p.id p s) p.id = some p := by
      simp [favLookup_insert]
    simp only [toggleFav, h2, Option.isSome_some, if_pos]
    exact favErase_insert p h
  · have h1 : toggleFav s p = favErase p.id s := by
      simp [toggleFav, h]
    rw [h1]
    have h2 : favLookup (favErase p.id s) p.id = none := favLookup_erase_self hs p.id
    simp only [toggleFav, h2, Option.isSome_none, Bool.false_eq_true, if_false]
    exact favInsert_erase hs h

/-- C1 (witness): the amended theorem applied at the singleton store holding
`catPhoto` under its own id. -/
theorem toggleFav_toggleFav_witness :
    toggleFav (toggleFav [((1 : Int), catPhoto)] catPhoto) catPhoto
      = [((1 : Int), catPhoto)] :=
  toggleFav_toggleFav [((1 : Int), catPhoto)] catPhoto (by decide)
    (Or.inr (by decide))

-- ### JSON values

mutual
/-- JSON value as produced by `JSON.parse`.  Numbers are modelled as
integers: every number occurring in the specified behaviours (photo ids)
is integral, and floating-point values are outside the model. -/
inductive Json where
  | null : Json
  | bool (b : Bool) : Json
  | num (n : Int) : Json
  | str (s : String) : Json
  | arr (xs : JsonList) : Json
  | obj (fields : JsonFields) : Json
deriving DecidableEq, Repr

/-- List of JSON values (spine of a JSON array). -/
inductive JsonList where
  | nil : JsonList
  | cons (hd : Json) (tl : JsonList) : JsonList
deriving DecidableEq, Repr

/-- Field list of a JSON object, in property order. -/
inductive JsonFields where
  | nil : JsonFields
  | cons (k : String) (v : Json) (tl : JsonFields) : JsonFields
deriving DecidableEq, Repr
end

/-- Convert the JSON array spine to a Lean list. -/
def JsonList.toList : JsonList → List Json
  | .nil => []
  | .cons hd tl => hd :: tl.toList

/-- Build a JSON array spine from a Lean list. -/
def JsonList.ofList : List Json → JsonList
  | [] => .nil
  | hd :: tl => .cons hd (JsonList.ofList tl)

theorem JsonList.toList_ofList (xs : List Json) : (JsonList.ofList xs).toList = xs := by
  induction xs with
  | nil => rfl
  | cons hd tl ih => simp [JsonList.ofList, JsonList.toList, ih]

/-- First field with the given name (JS property access `j[name]`);
`none` models `undefined` (absent property or non-object receiver). -/
def jsonField : JsonFields → String → Option Json
  | .nil, _ => none
  | .cons k v tl, name => if name = k then some v else jsonField tl name

/-- JS property access `j.name` for a parsed JSON value. -/
def Json.getField : Json → String → Option Json
  | .obj fields, name => jsonField fields name
  | _, _ => none

/-- JS truthiness of a JSON value: `null`, `false`, `0` and `""` are falsy;
every other parsed JSON value (including any array or object) is truthy. -/
def Json.truthy : Json → Bool
  | .null => false
  | .bool b => b
  | .num n => n != 0
  | .str s => s ≠ ""
  | .arr _ => true
  | .obj _ => true

/-- Truthiness of `j.name`: absent properties are `undefined`, hence falsy. -/
def truthyField (j : Json) (name : String) : Bool :=
  match j.getField name with
  | some v => v.truthy
  | none => false

/-- The numeric `id` property of an element, when present
(`typeof p.id === "number"`). -/
def itemId (j : Json) : Option Int :=
  match j.getField "id" with
  | some (.num n) => some n
  | _ => none

/-- Element acceptance test of `onImportFile`, Favorites.tsx line 97:
`p && typeof p.id === "number" && p.url && p.thumbnailUrl && p.title`. -/
def isValidItem (j : Json) : Bool :=
  j.truthy && (itemId j).isSome && truthyField j "url"
    && truthyField j "thumbnailUrl" && truthyField j "title"

/-- One loop iteration of `onImportFile`: a valid element is written into
the accumulating object under its own id (`next[p.id] = p`), an invalid
element is skipped. -/
def importStep (acc : FavStore Json) (it : Json) : FavStore Json :=
  if isValidItem it then
    match itemId it with
    | some k => favInsert k it acc
    | none => acc
  else acc

/-- The element loop of `onImportFile` starting from `next = { ...favs }`. -/
def importMerge (favs : FavStore Json) (items : List Json) : FavStore Json :=
  items.foldl importStep favs

/-- Failure mode of an import: the single catch-all of `onImportFile`
(`alert("Import failed: invalid JSON.")`). -/
inductive ImportError where
  | parseError : ImportError
deriving DecidableEq, Repr

/-- `onImportFile` after `JSON.parse` succeeded: a non-array top-level value
throws (`if (!Array.isArray(arr)) throw new Error("Invalid file format")`),
an array is merged element by element. -/
def onImportJson (favs : FavStore Json) (j : Json) : Except ImportError (FavStore Json) :=
  match j with
  | .arr xs => .ok (importMerge favs xs.toList)
  | _ => .error .parseError

-- ### Photos as JSON objects

/-- The JSON object serialized for a photo (the runtime representation of a
`Photo` record; `JSON.stringify` of the store values emits these objects and
`JSON.parse` reads them back unchanged). -/
def photoToJson (p : Photo) : Json :=
  .obj (.cons "id" (.num p.id)
    (.cons "albumId" (.num p.albumId)
      (.cons "title" (.str p.title)
        (.cons "url" (.str p.url)
          (.cons "thumbnailUrl" (.str p.thumbnailUrl) .nil)))))

/-- The favorites store as it exists at runtime: each photo record seen as
its JSON object. -/
def storeToJson (s : FavStore Photo) : FavStore Json :=
  s.map fun kv => (kv.1, photoToJson kv.2)

theorem itemId_photoToJson (p : Photo) : itemId (photoToJson p) = some p.id := rfl

theorem favLookup_storeToJson (s : FavStore Photo) (k : Int) :
    favLookup (storeToJson s) k = (favLookup s k).map photoToJson := by
  induction s with
  | nil => simp [storeToJson, favLookup]
  | cons hd tl ih =>
    obtain ⟨k0, v0⟩ := hd
    simp only [storeToJson, List.map_cons, favLookup]
    by_cases h : k = k0
    · rw [if_pos h, if_pos h]
      rfl
    · rw [if_neg h, if_neg h]
      exact ih

theorem favAll_keys_storeToJson (k0 : Int) (tl : FavStore Photo) :
    ((storeToJson tl).all fun kv => decide (k0 < kv.1))
      = tl.all fun kv => decide (k0 < kv.1) := by
  induction tl with
  | nil => rfl
  | cons hd tl ih =>
    obtain ⟨k1, v1⟩ := hd
    show (((k1, photoToJson v1) :: storeToJson tl).all _) = _
    simp only [List.all_cons, ih]

theorem favSortedB_storeToJson (s : FavStore Photo) :
    favSortedB (storeToJson s) = favSortedB s := by
  induction s with
  | nil => rfl
  | cons hd tl ih =>
    obtain ⟨k0, v0⟩ := hd
    show favSortedB ((k0, photoToJson v0) :: storeToJson tl) = favSortedB ((k0, v0) :: tl)
    simp only [favSortedB, favAll_keys_storeToJson, ih]

-- ### Import lemmas

theorem importMerge_cons (favs : FavStore Json) (it : Json) (items : List Json) :
    importMerge favs (it :: items) = importMerge (importStep favs it) items := rfl

theorem importMerge_lookup_eq (favs : FavStore Json) (hs : favSortedB favs = true)
    (items : List Json)
    (h : ∀ it ∈ items, ∀ k, itemId it = some k → favLookup favs k = some it) :
    importMerge favs items = favs := by
  induction items with
  | nil => rfl
  | cons it items ih =>
    have hstep : importStep favs it = favs := by
      unfold importStep
      by_cases hv : isValidItem it
      · rw [if_pos hv]
        cases hid : itemId it with
        | none => rfl
        | some k =>
          exact favInsert_lookup_eq hs (h it (List.mem_cons_self _ _) k hid)
      · rw [if_neg hv]
    rw [importMerge_cons, hstep]
    exact ih fun it' hm k hk => h it' (List.mem_cons_of_mem _ hm) k hk

theorem importMerge_filter (favs : FavStore Json) (items : List Json) :
    importMerge favs (items.filter fun it => isValidItem it) = importMerge favs items := by
  induction items generalizing favs with
  | nil => rfl
  | cons it items ih =>
    by_cases hv : isValidItem it
    · rw [List.filter_cons_of_pos hv, importMerge_cons, importMerge_cons, ih]
    · rw [List.filter_cons_of_neg hv, importMerge_cons, ih]
      unfold importStep
      rw [if_neg hv]

theorem favLookup_isSome_insert {α : Type} (k : Int) (v : α) (s : FavStore α)
    (k' : Int) (h : (favLookup s k').isSome = true) :
    (favLookup (favInsert k v s) k').isSome = true := by
  rw [favLookup_insert]
  by_cases h1 : k' = k
  · rw [if_pos h1]; rfl
  · rw [if_neg h1]; exact h

theorem importMerge_preserves (favs : FavStore Json) (items : List Json) (k : Int)
    (h : (favLookup favs k).isSome = true) :
    (favLookup (importMerge favs items) k).isSome = true := by
  induction items generalizing favs with
  | nil => exact h
  | cons it items ih =>
    rw [importMerge_cons]
    apply ih
    unfold importStep
    by_cases hv : isValidItem it
    · rw [if_pos hv]
      cases hid : itemId it with
      | none => exact h
      | some k0 => exact favLookup_isSome_insert k0 it favs k h
    · rw [if_neg hv]; exact h

-- ### Filter and sort (Favorites.tsx `filtered`)

/-- Sort selector of the favorites page: `type SortKey = "idDesc" | "idAsc" | "title"`. -/
inductive SortKey where
  | idDesc : SortKey
  | idAsc : SortKey
  | title : SortKey
deriving DecidableEq, Repr

/-- Sort key from the URL parameter:
`(params.get("sort") as SortKey) ?? "idDesc"` followed by a switch whose
`"idDesc"` and `default` branches coincide, so a missing or unknown value
behaves as `idDesc`. -/
def sortKeyOfParam : Option String → SortKey
  | some s => if s = "idAsc" then .idAsc else if s = "title" then .title else .idDesc
  | none => .idDesc

/-- JS `String.prototype.includes` on character lists. -/
def jsIncludes (needle : List Char) : List Char → Bool
  | [] => needle.isEmpty
  | c :: rest => needle.isPrefixOf (c :: rest) || jsIncludes needle rest

/-- Whitespace stripped by JS `String.prototype.trim` (the ASCII part;
Unicode space characters are outside the model, the claims use ASCII). -/
def jsWhitespaceChar (c : Char) : Bool :=
  c = ' ' || c = '\t' || c = '\n' || c = '\r' || c = '\x0b' || c = '\x0c'

/-- JS `String.prototype.trim` on character lists. -/
def jsTrim (cs : List Char) : List Char :=
  ((cs.dropWhile jsWhitespaceChar).reverse.dropWhile jsWhitespaceChar).reverse

/-- JS `String.prototype.toLowerCase` on one character (ASCII case mapping;
non-ASCII case folding is outside the model, the claims use ASCII). -/
def jsCharToLower (c : Char) : Char :=
  if 'A' ≤ c ∧ c ≤ 'Z' then Char.ofNat (c.toNat + 32) else c

/-- JS `String.prototype.toLowerCase` on character lists. -/
def jsToLower (cs : List Char) : List Char := cs.map jsCharToLower

/-- The filter predicate actually applied by Favorites.tsx lines 32-34:
`const q = qDebounced.trim().toLowerCase()` and
`p.title.toLowerCase().includes(q)`. -/
def favMatches (qDebounced : String) (p : Photo) : Bool :=
  jsIncludes (jsToLower (jsTrim qDebounced.data)) (jsToLower p.title.data)

/-- Filter stage of `filtered` (Favorites.tsx lines 32-35): an empty trimmed
query keeps everything (`all.slice()`), otherwise titles are matched
case-insensitively against the trimmed lowercased query. -/
def favoritesFilterStage (all : List Photo) (qDebounced : String) : List Photo :=
  let q := jsToLower (jsTrim qDebounced.data)
  if q.isEmpty then all
  else all.filter fun p => jsIncludes q (jsToLower p.title.data)

/-- `filtered` from Favorites.tsx lines 31-49: filter then stable sort by
the selected key.  `lc` is the locale comparator underlying
`a.title.localeCompare(b.title)` (negative/zero/positive result), kept
abstract; `Array.prototype.sort` is stable, modelled by insertion sort. -/
def favoritesFiltered (lc : String → String → Int) (all : List Photo)
    (qDebounced : String) : SortKey → List Photo
  | .title =>
      List.insertionSort (fun a b => lc a.title b.title ≤ 0)
        (favoritesFilterStage all qDebounced)
  | .idAsc =>
      List.insertionSort (fun a b => a.id ≤ b.id) (favoritesFilterStage all qDebounced)
  | .idDesc =>
      List.insertionSort (fun a b => b.id ≤ a.id) (favoritesFilterStage all qDebounced)

/-- `exportJSON` payload choice, Favorites.tsx line 74:
`const payload = filtered.length ? filtered : all`. -/
def exportPayload (lc : String → String → Int) (favs : FavStore Photo)
    (qDebounced : String) (k : SortKey) : List Photo :=
  let f := favoritesFiltered lc (favValues favs) qDebounced k
  if f.length ≠ 0 then f else favValues favs

theorem jsIncludes_nil (hay : List Char) : jsIncludes [] hay = true := by
  cases hay <;> simp [jsIncludes, List.isPrefixOf]

theorem favoritesFiltered_perm_stage (lc : String → String → Int) (all : List Photo)
    (q : String) (k : SortKey) :
    (favoritesFiltered lc all q k).Perm (favoritesFilterStage all q) := by
  cases k <;> exact List.perm_insertionSort _ _

theorem favoritesFilterStage_eq_filter (all : List Photo) (q : String) :
    favoritesFilterStage all q = all.filter fun p => favMatches q p := by
  unfold favoritesFilterStage favMatches
  by_cases h : (jsToLower (jsTrim q.data)).isEmpty = true
  · rw [if_pos h]
    have hd : jsToLower (jsTrim q.data) = [] := by
      cases hc : jsToLower (jsTrim q.data) with
      | nil => rfl
      | cons c cs => rw [hc] at h; simp [List.isEmpty] at h
    rw [hd]
    symm
    apply List.filter_eq_self.mpr
    intro p _
    exact jsIncludes_nil _
  · rw [if_neg h]

theorem favoritesFiltered_perm_filter (lc : String → String → Int) (all : List Photo)
    (q : String) (k : SortKey) :
    (favoritesFiltered lc all q k).Perm (all.filter fun p => favMatches q p) := by
  have h := favoritesFiltered_perm_stage lc all q k
  rwa [favoritesFilterStage_eq_filter] at h

-- ### Well-formedness consequences

theorem favWF_sorted {s : FavStore Photo} (h : favWF s = true) : favSortedB s = true := by
  simp only [favWF, Bool.and_eq_true] at h
  exact h.1

theorem favWF_lookup_values {s : FavStore Photo} (h : favWF s = true) {p : Photo}
    (hp : p ∈ favValues s) : favLookup s p.id = some p := by
  obtain ⟨⟨k, v⟩, hm, rfl⟩ := List.mem_map.mp hp
  show favLookup s v.id = some v
  have hid : v.id = k := by
    simp only [favWF, Bool.and_eq_true, List.all_eq_true] at h
    simpa using h.2 (k, v) hm
  rw [hid]
  exact favLookup_of_mem (favWF_sorted h) hm

theorem exportPayload_mem (lc : String → String → Int) (favs : FavStore Photo)
    (q : String) (k : SortKey) {p : Photo} (hp : p ∈ exportPayload lc favs q k) :
    p ∈ favValues favs := by
  unfold exportPayload at hp
  by_cases hc : (favoritesFiltered lc (favValues favs) q k).length ≠ 0
  · rw [if_pos hc] at hp
    have hmem := (favoritesFiltered_perm_filter lc (favValues favs) q k).mem_iff.mp hp
    exact (List.mem_filter.mp hmem).1
  · rw [if_neg hc] at hp
    exact hp

deriving instance DecidableEq for Except

-- ### C2: export/import round trip

/-- C2: exporting the store to a JSON array (the `exportJSON` payload,
serialized element-wise; with an empty query the payload is the whole
store) and importing that array back into the same store yields a store
equal to the original.  Stated at the runtime (JSON-object) level of the
store; `JSON.parse ∘ JSON.stringify` is the identity on these values.
Every exported element either passes the import validity check and is
rewritten under its own id with its own value, or is skipped; both leave
the store unchanged. -/
theorem exportImport_roundtrip (lc : String → String → Int) (favs : FavStore Photo)
    (q : String) (k : SortKey) (h : favWF favs = true) :
    onImportJson (storeToJson favs)
        (Json.arr (JsonList.ofList ((exportPayload lc favs q k).map photoToJson)))
      = Except.ok (storeToJson favs) := by
  simp only [onImportJson, JsonList.toList_ofList]
  congr 1
  apply importMerge_lookup_eq
  · rw [favSortedB_storeToJson]
    exact favWF_sorted h
  · intro it hm k' hk
    obtain ⟨p, hp, rfl⟩ := List.mem_map.mp hm
    rw [itemId_photoToJson] at hk
    injection hk with hk
    subst hk
    rw [favLookup_storeToJson,
      favWF_lookup_values h (exportPayload_mem lc favs q k hp)]
    rfl

/-- Locale comparator used to instantiate examples: compares nothing
(every comparison returns 0); any consistent comparator works. -/
def lcZero : String → String → Int := fun _ _ => 0

/-- C2 (witness): round trip of the singleton store holding `catPhoto`,
with an empty query and the default sort. -/
theorem exportImport_roundtrip_witness :
    onImportJson (storeToJson [((1 : Int), catPhoto)])
        (Json.arr (JsonList.ofList
          ((exportPayload lcZero [((1 : Int), catPhoto)] "" SortKey.idDesc).map photoToJson)))
      = Except.ok (storeToJson [((1 : Int), catPhoto)]) :=
  exportImport_roundtrip lcZero [((1 : Int), catPhoto)] "" SortKey.idDesc (by decide)

-- ### C3: element-level validation on import

/-- A string-valued property that is non-empty (part of the spec-side
notion of structurally matching Photo). -/
def nonEmptyStrField (j : Json) (name : String) : Bool :=
  match j.getField name with
  | some (.str s) => s ≠ ""
  | _ => false

/-- Modelled from the spec: "accept only if it structurally matches Photo
(numeric id, non-empty url, thumbnailUrl, title)" — the spec-side element
predicate, used to compare against the code's acceptance test. -/
def specStructMatchesPhoto (j : Json) : Bool :=
  (itemId j).isSome && nonEmptyStrField j "url"
    && nonEmptyStrField j "thumbnailUrl" && nonEmptyStrField j "title"

theorem truthyField_of_nonEmptyStrField {j : Json} {name : String}
    (h : nonEmptyStrField j name = true) : truthyField j name = true := by
  unfold nonEmptyStrField at h
  unfold truthyField
  cases hg : j.getField name with
  | none => rw [hg] at h; exact absurd h (by simp)
  | some v =>
    rw [hg] at h
    cases v <;> simp_all [Json.truthy]

theorem truthy_of_itemId_isSome {j : Json} (h : (itemId j).isSome = true) :
    j.truthy = true := by
  cases j <;> simp_all [itemId, Json.getField, Json.truthy]

/-- Every element that structurally matches Photo passes the code's
acceptance test (the converse fails, see the counterexample). -/
theorem isValidItem_of_specStruct {j : Json} (h : specStructMatchesPhoto j = true) :
    isValidItem j = true := by
  simp only [specStructMatchesPhoto, Bool.and_eq_true] at h
  obtain ⟨⟨⟨hid, hurl⟩, hthumb⟩, htitle⟩ := h
  simp only [isValidItem, Bool.and_eq_true]
  exact ⟨⟨⟨⟨truthy_of_itemId_isSome hid, hid⟩,
    truthyField_of_nonEmptyStrField hurl⟩,
    truthyField_of_nonEmptyStrField hthumb⟩,
    truthyField_of_nonEmptyStrField htitle⟩

/-- A structurally valid import element with id 1 (the runtime object of
`catPhoto`). -/
def goodItem : Json := photoToJson catPhoto

/-- A garbage import element: an object with none of the Photo fields. -/
def garbageItem : Json := .obj (.cons "garbage" (.num 1) .nil)

/-- A Photo-shaped object whose url/thumbnailUrl/title are numbers, not
strings: it does not structurally match Photo, yet every field is truthy. -/
def badPhotoLike : Json :=
  .obj (.cons "id" (.num 1)
    (.cons "url" (.num 5)
      (.cons "thumbnailUrl" (.num 6)
        (.cons "title" (.num 7) .nil))))

/-- C3 (counterexample): the claim says elements that do not structurally
match Photo are skipped, but the code only tests truthiness of
`url`/`thumbnailUrl`/`title`: `badPhotoLike` (numeric fields) is not
Photo-shaped yet is imported into the empty store instead of being
skipped. -/
theorem import_validation_counterexample :
    specStructMatchesPhoto badPhotoLike = false
      ∧ onImportJson [] (Json.arr (JsonList.ofList [badPhotoLike]))
          = Except.ok [((1 : Int), badPhotoLike)]
      ∧ onImportJson [] (Json.arr (JsonList.ofList [badPhotoLike]))
          ≠ Except.ok ([] : FavStore Json) := by
  refine ⟨by decide, by decide, by decide⟩

/-- C3 (amended): import of a JSON array raises no error; it keeps exactly
the elements passing the code's truthiness test (which accepts every
structurally Photo-matching element, but also some non-matching ones),
silently skipping the rest; kept elements are merged into the existing
store overwriting by id, and no existing entry is ever removed; importing
[valid, garbage] into the empty store yields exactly the valid element. -/
theorem import_element_validation (favs : FavStore Json) (xs : List Json) :
    onImportJson favs (Json.arr (JsonList.ofList xs)) = Except.ok (importMerge favs xs)
      ∧ importMerge favs (xs.filter fun it => isValidItem it) = importMerge favs xs
      ∧ (∀ k, (favLookup favs k).isSome = true →
          (favLookup (importMerge favs xs) k).isSome = true)
      ∧ (∀ it k, itemId it = some k → isValidItem it = true →
          favLookup (importMerge favs [it]) k = some it)
      ∧ (∀ j, specStructMatchesPhoto j = true → isValidItem j = true)
      ∧ onImportJson [] (Json.arr (JsonList.ofList [goodItem, garbageItem]))
          = Except.ok [((1 : Int), goodItem)] := by
  refine ⟨?_, ?_, ?_, ?_, ?_, by decide⟩
  · simp only [onImportJson, JsonList.toList_ofList]
  · exact importMerge_filter favs xs
  · intro k hk
    exact importMerge_preserves favs xs k hk
  · intro it k hid hv
    show favLookup (importStep favs it) k = some it
    unfold importStep
    rw [if_pos hv, hid, favLookup_insert, if_pos rfl]
  · intro j h
    exact isValidItem_of_specStruct h

/-- C3 (witness): the amended theorem applied at the empty store and the
two-element list [goodItem, garbageItem]. -/
theorem import_element_validation_witness :
    onImportJson [] (Json.arr (JsonList.ofList [goodItem, garbageItem]))
        = Except.ok (importMerge [] [goodItem, garbageItem])
      ∧ importMerge [] ([goodItem, garbageItem].filter fun it => isValidItem it)
        = importMerge [] [goodItem, garbageItem] :=
  ⟨(import_element_validation [] [goodItem, garbageItem]).1,
    (import_element_validation [] [goodItem, garbageItem]).2.1⟩

-- ### C5: filter semantics

/-- C5 (counterexample): with the query "ca " (trailing blank) the code
trims before matching and keeps the photo titled "Cat", although "Cat"
does not contain the query itself as a case-insensitive substring — so
"keeps exactly the photos whose title contains the query" fails for
untrimmed queries. -/
theorem filter_raw_query_counterexample :
    favoritesFiltered lcZero [catPhoto] "ca " SortKey.idDesc = [catPhoto]
      ∧ jsIncludes (jsToLower "ca ".data) (jsToLower catPhoto.title.data) = false := by
  constructor
  · show List.insertionSort (fun a b : Photo => b.id ≤ a.id)
      (favoritesFilterStage [catPhoto] "ca ") = [catPhoto]
    have h : favoritesFilterStage [catPhoto] "ca " = [catPhoto] := by decide
    rw [h]
    rfl
  · decide

/-- C5 (amended): for every photo sequence, query and sort key, `filtered`
keeps exactly (as a multiset, the sort only reorders) the photos whose
lowercased title contains the lowercased *trimmed* query as a substring —
the comparison uses the title only and the input list is untouched (the
code filters a copy); filtering [Cat, Dog] with "ca" keeps exactly Cat. -/
theorem filter_keeps_matching_titles (lc : String → String → Int)
    (all : List Photo) (q : String) (k : SortKey) :
    (favoritesFiltered lc all q k).Perm (all.filter fun p => favMatches q p)
      ∧ (∀ p, p ∈ favoritesFiltered lc all q k ↔ p ∈ all ∧ favMatches q p = true)
      ∧ favoritesFiltered lc [catPhoto, dogPhoto] "ca" SortKey.idDesc = [catPhoto] := by
  refine ⟨favoritesFiltered_perm_filter lc all q k, ?_, ?_⟩
  · intro p
    rw [(favoritesFiltered_perm_filter lc all q k).mem_iff, List.mem_filter]
  · show List.insertionSort (fun a b : Photo => b.id ≤ a.id)
      (favoritesFilterStage [catPhoto, dogPhoto] "ca") = [catPhoto]
    have h : favoritesFilterStage [catPhoto, dogPhoto] "ca" = [catPhoto] := by decide
    rw [h]
    rfl

/-- C5 (witness): the amended theorem at the two-photo list with query
"ca" and the default sort key. -/
theorem filter_keeps_matching_titles_witness :
    (favoritesFiltered lcZero [catPhoto, dogPhoto] "ca" SortKey.idDesc).Perm
        ([catPhoto, dogPhoto].filter fun p => favMatches "ca" p)
      ∧ favoritesFiltered lcZero [catPhoto, dogPhoto] "ca" SortKey.idDesc = [catPhoto] :=
  ⟨(filter_keeps_matching_titles lcZero [catPhoto, dogPhoto] "ca" SortKey.idDesc).1,
    (filter_keeps_matching_titles lcZero [catPhoto, dogPhoto] "ca" SortKey.idDesc).2.2⟩

-- ### C6: sort semantics

/-- The three-photo example list of the claim: ids 3, 1, 2. -/
def sortExample : List Photo :=
  [ { id := 3, albumId := 1, title := "c", url := "u3", thumbnailUrl := "t3" },
    { id := 1, albumId := 1, title := "a", url := "u1", thumbnailUrl := "t1" },
    { id := 2, albumId := 1, title := "b", url := "u2", thumbnailUrl := "t2" } ]

/-- C6: `idAsc` sorts ascending by id, `idDesc` — the default when the sort
parameter is absent — sorts descending by id, and `title` sorts ascending
by the locale comparator `lc` (any consistent total comparator); on the
example list with ids [3,1,2], `idAsc` yields ids [1,2,3] and `idDesc`
yields [3,2,1]. -/
theorem sort_orders_by_key (lc : String → String → Int)
    (htot : ∀ a b : String, lc a b ≤ 0 ∨ lc b a ≤ 0)
    (htr : ∀ a b c : String, lc a b ≤ 0 → lc b c ≤ 0 → lc a c ≤ 0)
    (all : List Photo) (q : String) :
    (favoritesFiltered lc all q SortKey.idAsc).Sorted (fun a b : Photo => a.id ≤ b.id)
      ∧ (favoritesFiltered lc all q SortKey.idDesc).Sorted (fun a b : Photo => b.id ≤ a.id)
      ∧ (favoritesFiltered lc all q SortKey.title).Sorted
          (fun a b : Photo => lc a.title b.title ≤ 0)
      ∧ sortKeyOfParam none = SortKey.idDesc
      ∧ (favoritesFiltered lc sortExample "" SortKey.idAsc).map Photo.id = [1, 2, 3]
      ∧ (favoritesFiltered lc sortExample "" SortKey.idDesc).map Photo.id = [3, 2, 1] := by
  refine ⟨?_, ?_, ?_, rfl, ?_, ?_⟩
  · haveI : IsTotal Photo (fun a b : Photo => a.id ≤ b.id) :=
      ⟨fun a b => Int.le_total a.id b.id⟩
    haveI : IsTrans Photo (fun a b : Photo => a.id ≤ b.id) :=
      ⟨fun _ _ _ hab hbc => le_trans hab hbc⟩
    exact List.sorted_insertionSort _ _
  · haveI : IsTotal Photo (fun a b : Photo => b.id ≤ a.id) :=
      ⟨fun a b => Int.le_total b.id a.id⟩
    haveI : IsTrans Photo (fun a b : Photo => b.id ≤ a.id) :=
      ⟨fun _ _ _ hab hbc => le_trans hbc hab⟩
    exact List.sorted_insertionSort _ _
  · haveI : IsTotal Photo (fun a b : Photo => lc a.title b.title ≤ 0) :=
      ⟨fun a b => htot a.title b.title⟩
    haveI : IsTrans Photo (fun a b : Photo => lc a.title b.title ≤ 0) :=
      ⟨fun a b c hab hbc => htr a.title b.title c.title hab hbc⟩
    exact List.sorted_insertionSort _ _
  · show (List.insertionSort (fun a b : Photo => a.id ≤ b.id)
        (favoritesFilterStage sortExample "")).map Photo.id = _
    have h : favoritesFilterStage sortExample "" = sortExample := by decide
    rw [h]
    rfl
  · show (List.insertionSort (fun a b : Photo => b.id ≤ a.id)
        (favoritesFilterStage sortExample "")).map Photo.id = _
    have h : favoritesFilterStage sortExample "" = sortExample := by decide
    rw [h]
    rfl

/-- C6 (witness): the sort theorem applied to the trivial (everywhere-0,
hence total and transitive) comparator at the example list. -/
theorem sort_orders_by_key_witness :
    (favoritesFiltered lcZero sortExample "" SortKey.idAsc).map Photo.id = [1, 2, 3]
      ∧ (favoritesFiltered lcZero sortExample "" SortKey.idDesc).map Photo.id = [3, 2, 1] :=
  ⟨(sort_orders_by_key lcZero (fun _ _ => Or.inl (le_refl 0))
      (fun _ _ _ _ _ => le_refl 0) sortExample "").2.2.2.2.1,
    (sort_orders_by_key lcZero (fun _ _ => Or.inl (le_refl 0))
      (fun _ _ _ _ _ => le_refl 0) sortExample "").2.2.2.2.2⟩

-- ### C10: export payload fallback

/-- C10: `exportJSON` serializes the filtered-and-sorted subset when it is
non-empty, and falls back to the entire store when the filter matches
nothing; concretely, exporting the singleton store holding "Cat" under the
query "zzz" (which matches nothing) produces the full store, not an empty
array. -/
theorem export_payload_fallback (lc : String → String → Int) (favs : FavStore Photo)
    (q : String) (k : SortKey) :
    (favoritesFiltered lc (favValues favs) q k = [] →
        exportPayload lc favs q k = favValues favs)
      ∧ (favoritesFiltered lc (favValues favs) q k ≠ [] →
        exportPayload lc favs q k = favoritesFiltered lc (favValues favs) q k)
      ∧ exportPayload lcZero [((1 : Int), catPhoto)] "zzz" SortKey.idDesc
        = favValues [((1 : Int), catPhoto)]
      ∧ favValues [((1 : Int), catPhoto)] ≠ []
      ∧ favoritesFiltered lcZero (favValues [((1 : Int), catPhoto)]) "zzz" SortKey.idDesc
        = [] := by
  have hzzz : favoritesFiltered lcZero (favValues [((1 : Int), catPhoto)]) "zzz"
      SortKey.idDesc = [] := by
    show List.insertionSort (fun a b : Photo => b.id ≤ a.id)
      (favoritesFilterStage (favValues [((1 : Int), catPhoto)]) "zzz") = []
    have h2 : favoritesFilterStage (favValues [((1 : Int), catPhoto)]) "zzz" = [] := by
      decide
    rw [h2]
    rfl
  refine ⟨?_, ?_, ?_, by decide, hzzz⟩
  · intro h
    show (if (favoritesFiltered lc (favValues favs) q k).length ≠ 0 then
        favoritesFiltered lc (favValues favs) q k else favValues favs) = favValues favs
    rw [h]
    simp
  · intro h
    show (if (favoritesFiltered lc (favValues favs) q k).length ≠ 0 then
          favoritesFiltered lc (favValues favs) q k else favValues favs)
        = favoritesFiltered lc (favValues favs) q k
    split_ifs with hc2
    · rfl
    · exact absurd (List.length_eq_zero.mp (not_ne_iff.mp hc2)) h
  · show (if (favoritesFiltered lcZero (favValues [((1 : Int), catPhoto)]) "zzz"
          SortKey.idDesc).length ≠ 0 then
          favoritesFiltered lcZero (favValues [((1 : Int), catPhoto)]) "zzz" SortKey.idDesc
        else favValues [((1 : Int), catPhoto)]) = favValues [((1 : Int), catPhoto)]
    rw [hzzz]
    simp

/-- C10 (witness): the fallback conjuncts of the export theorem at the
concrete singleton store and non-matching query. -/
theorem export_payload_fallback_witness :
    exportPayload lcZero [((1 : Int), catPhoto)] "zzz" SortKey.idDesc
        = favValues [((1 : Int), catPhoto)]
      ∧ favValues [((1 : Int), catPhoto)] ≠ ([] : List Photo) :=
  ⟨(export_payload_fallback lcZero [((1 : Int), catPhoto)] "zzz" SortKey.idDesc).2.2.1,
    (export_payload_fallback lcZero [((1 : Int), catPhoto)] "zzz" SortKey.idDesc).2.2.2.1⟩

-- ### JSON text parsing (modelled platform builtin)

/-- Opening brace character (written by code point to keep braces out of
literals). -/
def braceOpen : Char := Char.ofNat 123

/-- Closing brace character. -/
def braceClose : Char := Char.ofNat 125

/-- JSON insignificant whitespace. -/
def jsonWsChar (c : Char) : Bool :=
  c = ' ' || c = '\t' || c = '\n' || c = '\r'

/-- Skip insignificant whitespace. -/
def skipJsonWs : List Char → List Char
  | [] => []
  | c :: cs => if jsonWsChar c then skipJsonWs cs else c :: cs

/-- Value of a decimal digit string. -/
def digitsToNat (ds : List Char) : Nat :=
  ds.foldl (fun acc c => acc * 10 + (c.toNat - 48)) 0

/-- Parse a JSON integer literal (digits, `"0"` cannot be followed by more
digits).  Fractions and exponents are not modelled: every number in the
specified behaviours is integral, so such texts are treated as unparsable. -/
def parseJsonNat (cs : List Char) : Option (Nat × List Char) :=
  let ds := cs.takeWhile Char.isDigit
  let rest := cs.dropWhile Char.isDigit
  if ds.isEmpty then none
  else if ds.length > 1 && ds.headD 'x' = '0' then none
  else
    match rest with
    | '.' :: _ => none
    | 'e' :: _ => none
    | 'E' :: _ => none
    | _ => some (digitsToNat ds, rest)

/-- Simple escape sequences of JSON strings. -/
def jsonEscChar (c : Char) : Option Char :=
  if c = '"' then some '"'
  else if c = '\\' then some '\\'
  else if c = '/' then some '/'
  else if c = 'n' then some '\n'
  else if c = 't' then some '\t'
  else if c = 'r' then some '\r'
  else if c = 'b' then some (Char.ofNat 8)
  else if c = 'f' then some (Char.ofNat 12)
  else none

/-- Hexadecimal digit value. -/
def hexDigitVal (c : Char) : Option Nat :=
  if '0' ≤ c ∧ c ≤ '9' then some (c.toNat - 48)
  else if 'a' ≤ c ∧ c ≤ 'f' then some (c.toNat - 87)
  else if 'A' ≤ c ∧ c ≤ 'F' then some (c.toNat - 55)
  else none

/-- Parse the body of a JSON string literal after the opening quote,
returning the characters and the remaining input. -/
def parseJsonStrBody : List Char → Option (List Char × List Char)
  | [] => none
  | '"' :: rest => some ([], rest)
  | '\\' :: 'u' :: h1 :: h2 :: h3 :: h4 :: rest =>
    match hexDigitVal h1, hexDigitVal h2, hexDigitVal h3, hexDigitVal h4 with
    | some a, some b, some c, some d =>
      (parseJsonStrBody rest).map fun sr =>
        (Char.ofNat (((a * 16 + b) * 16 + c) * 16 + d) :: sr.1, sr.2)
    | _, _, _, _ => none
  | '\\' :: c :: rest =>
    match jsonEscChar c with
    | some e => (parseJsonStrBody rest).map fun sr => (e :: sr.1, sr.2)
    | none => none
  | c :: rest => (parseJsonStrBody rest).map fun sr => (c :: sr.1, sr.2)

/-- Insert a member into an object's field list; a duplicate key keeps its
first position but takes the later value, as in `JSON.parse`. -/
def setJsonField : List (String × Json) → String → Json → List (String × Json)
  | [], k, v => [(k, v)]
  | (k0, v0) :: tl, k, v =>
    if k = k0 then (k, v) :: tl else (k0, v0) :: setJsonField tl k v

/-- Build object fields from a key/value list. -/
def JsonFields.ofList : List (String × Json) → JsonFields
  | [] => .nil
  | (k, v) :: tl => .cons k v (JsonFields.ofList tl)

mutual
/-- Recursive-descent JSON value parser (fuel-driven; the fuel passed by
`jsParse` always suffices for its input). -/
def parseJsonVal : Nat → List Char → Option (Json × List Char)
  | 0, _ => none
  | fuel + 1, cs =>
    match skipJsonWs cs with
    | 'n' :: 'u' :: 'l' :: 'l' :: rest => some (.null, rest)
    | 't' :: 'r' :: 'u' :: 'e' :: rest => some (.bool true, rest)
    | 'f' :: 'a' :: 'l' :: 's' :: 'e' :: rest => some (.bool false, rest)
    | '"' :: rest =>
      (parseJsonStrBody rest).map fun sr => (.str (String.mk sr.1), sr.2)
    | '[' :: rest => parseJsonArrFirst fuel rest
    | '-' :: rest =>
      (parseJsonNat rest).map fun nr => (.num (-(nr.1 : Int)), nr.2)
    | c :: rest =>
      if c = braceOpen then parseJsonObjFirst fuel rest
      else if c.isDigit then
        (parseJsonNat (c :: rest)).map fun nr => (.num (nr.1 : Int), nr.2)
      else none
    | [] => none

/-- Parse the first element of an array (or its immediate end). -/
def parseJsonArrFirst : Nat → List Char → Option (Json × List Char)
  | 0, _ => none
  | fuel + 1, cs =>
    match skipJsonWs cs with
    | ']' :: rest => some (.arr .nil, rest)
    | cs' =>
      match parseJsonVal fuel cs' with
      | some (j, rest) => parseJsonArrRest fuel [j] rest
      | none => none

/-- Parse the remaining elements of an array (accumulator reversed). -/
def parseJsonArrRest : Nat → List Json → List Char → Option (Json × List Char)
  | 0, _, _ => none
  | fuel + 1, acc, cs =>
    match skipJsonWs cs with
    | ',' :: rest =>
      match parseJsonVal fuel rest with
      | some (j, rest2) => parseJsonArrRest fuel (j :: acc) rest2
      | none => none
    | ']' :: rest => some (.arr (JsonList.ofList acc.reverse), rest)
    | _ => none

/-- Parse the first member of an object (or its immediate end). -/
def parseJsonObjFirst : Nat → List Char → Option (Json × List Char)
  | 0, _ => none
  | fuel + 1, cs =>
    match skipJsonWs cs with
    | c :: rest =>
      if c = braceClose then some (.obj .nil, rest)
      else parseJsonMember fuel [] (c :: rest)
    | [] => none

/-- Parse one `"key": value` member and continue. -/
def parseJsonMember : Nat → List (String × Json) → List Char → Option (Json × List Char)
  | 0, _, _ => none
  | fuel + 1, acc, cs =>
    match skipJsonWs cs with
    | '"' :: rest =>
      match parseJsonStrBody rest with
      | some (kcs, rest2) =>
        match skipJsonWs rest2 with
        | ':' :: rest3 =>
          match parseJsonVal fuel rest3 with
          | some (v, rest4) =>
            parseJsonObjRest fuel (setJsonField acc (String.mk kcs) v) rest4
          | none => none
        | _ => none
      | none => none
    | _ => none

/-- After a member: a comma continues, a closing brace finishes. -/
def parseJsonObjRest : Nat → List (String × Json) → List Char → Option (Json × List Char)
  | 0, _, _ => none
  | fuel + 1, acc, cs =>
    match skipJsonWs cs with
    | ',' :: rest => parseJsonMember fuel acc rest
    | c :: rest =>
      if c = braceClose then some (.obj (JsonFields.ofList acc), rest)
      else none
    | [] => none
end

/-- Modelled from the spec: `JSON.parse` is a platform builtin; this model
parses JSON texts whose numbers are integers (see `parseJsonNat`), returning
`none` exactly when the modelled grammar rejects the text (the
"not valid JSON" case of the spec). -/
def jsParse (s : String) : Option Json :=
  match parseJsonVal (2 * s.length + 8) s.data with
  | some (j, rest) => if (skipJsonWs rest).isEmpty then some j else none
  | none => none

/-- Top-level array test (`Array.isArray`). -/
def Json.isArr : Json → Bool
  | .arr _ => true
  | _ => false

/-- `onImportFile` from the file text on: `JSON.parse(text)` inside
`try`, the array check, the element loop, and the catch-all that leaves
the store untouched and reports the failure
(`alert("Import failed: invalid JSON.")`).  Returns the resulting store
and the reported error, if any. -/
def applyImportText (favs : FavStore Json) (text : String) :
    FavStore Json × Option ImportError :=
  match jsParse text with
  | none => (favs, some .parseError)
  | some j =>
    match onImportJson favs j with
    | .ok s => (s, none)
    | .error e => (favs, some e)

/-- C4: an import whose text does not parse as JSON, or whose top-level
value is not an array, reports a ParseError and leaves the store completely
unchanged; this whole-import rejection happens only in those cases — a
top-level array always merges without reporting an error; the literal text
"not json" is rejected, leaving the store unchanged. -/
theorem import_parse_error (favs : FavStore Json) (text : String) :
    (jsParse text = none →
        applyImportText favs text = (favs, some ImportError.parseError))
      ∧ (∀ j, jsParse text = some j → j.isArr = false →
        applyImportText favs text = (favs, some ImportError.parseError))
      ∧ (∀ xs, jsParse text = some (Json.arr xs) →
        applyImportText favs text = (importMerge favs xs.toList, none))
      ∧ applyImportText favs "not json" = (favs, some ImportError.parseError) := by
  refine ⟨?_, ?_, ?_, ?_⟩
  · intro h
    unfold applyImportText
    rw [h]
  · intro j hj hia
    unfold applyImportText
    rw [hj]
    cases j with
    | arr xs => simp [Json.isArr] at hia
    | null => rfl
    | bool b => rfl
    | num n => rfl
    | str s => rfl
    | obj fields => rfl
  · intro xs hx
    unfold applyImportText
    rw [hx]
    rfl
  · unfold applyImportText
    rw [show jsParse "not json" = none from by decide]

/-- C4 (witness): the parse-failure theorem applied to the empty store and
the literal text "not json". -/
theorem import_parse_error_witness :
    applyImportText [] "not json" = (([] : FavStore Json), some ImportError.parseError) :=
  (import_parse_error [] "not json").2.2.2

-- ### Pagination controller (Gallery.tsx)

/-- The state held by `Gallery`: `page`, accumulated `items`, `hasMore`,
`loading`, `error` (Gallery.tsx lines 15-21). -/
structure GalleryState where
  page : Nat
  items : List Photo
  hasMore : Bool
  loading : Bool
  error : Option String
deriving DecidableEq, Repr

/-- State on mount, once the page-appender effect has started the first
fetch: `page = 1`, no items, `hasMore = true`, loading, no error. -/
def initialGallery : GalleryState :=
  { page := 1, items := [], hasMore := true, loading := true, error := none }

/-- Discrete events applied to the controller by the single UI thread. -/
inductive GEvent where
  /-- The in-flight page fetch resolves with `data`. -/
  | fetchOk (data : List Photo) : GEvent
  /-- The in-flight page fetch rejects. -/
  | fetchErr : GEvent
  /-- The infinite-scroll sentinel fires. -/
  | sentinel : GEvent
  /-- The user clicks the Retry button. -/
  | retry : GEvent
  /-- The query/album filters change (reset effect). -/
  | reset : GEvent
deriving DecidableEq, Repr

/-- One step of the controller, from Gallery.tsx:
  * `fetchOk data` — the page appender resolution (lines 49-57):
    `setItems((prev) => [...prev, ...data]); if (data.length < 24)
    setHasMore(false)`, then `finally` clears `loading`;
  * `fetchErr` — the rejection path: `setError("Could not load photos")`,
    then `finally` clears `loading`;
  * `sentinel` — lines 93-96: `() => hasMore && !loading && !error &&
    setPage((p) => p + 1)`, upon which the `[page]` effect starts the next
    fetch (`setLoading(true); setError(null)`); otherwise no state changes;
  * `retry` — the Retry button (line 205) runs `setPage((p) => p)`: the
    page value is unchanged, so React bails out and the `[page]` effect
    does not re-run — no fetch is issued and no state field changes;
  * `reset` — the filter-change effect (lines 69-77): clears items, sets
    `hasMore` to true, page back to 1, and starts a fetch of page 1. -/
def galleryStep (s : GalleryState) : GEvent → GalleryState
  | .fetchOk data =>
    { s with
        items := s.items ++ data,
        hasMore := if data.length < 24 then false else s.hasMore,
        loading := false }
  | .fetchErr => { s with error := some "Could not load photos", loading := false }
  | .sentinel =>
    if s.hasMore = true ∧ s.loading = false ∧ s.error = none then
      { s with page := s.page + 1, loading := true, error := none }
    else s
  | .retry => s
  | .reset => { page := 1, items := [], hasMore := true, loading := true, error := none }

/-- A run of the controller over a sequence of events. -/
def runGallery (s : GalleryState) (es : List GEvent) : GalleryState :=
  es.foldl galleryStep s

/-- `n` placeholder photos with ids `start, start+1, ...`. -/
def mkPhotos (start n : Nat) : List Photo :=
  (List.range n).map fun i =>
    { id := (start + i : Int), albumId := 1, title := "p", url := "u", thumbnailUrl := "t" }

/-- The event trace of the claim: pages of sizes 24, 24 and 10, each
followed by a sentinel fire, plus one extra sentinel fire at the end. -/
def shortPageRun : List GEvent :=
  [ .fetchOk (mkPhotos 1 24), .sentinel,
    .fetchOk (mkPhotos 25 24), .sentinel,
    .fetchOk (mkPhotos 49 10), .sentinel, .sentinel ]

/-- Final state of `shortPageRun`: 58 items, stuck on page 3 with
`hasMore = false`. -/
def shortPageFinal : GalleryState :=
  { page := 3,
    items := mkPhotos 1 24 ++ mkPhotos 25 24 ++ mkPhotos 49 10,
    hasMore := false, loading := false, error := none }

/-- C7: a fetched page shorter than the page size 24 makes `hasMore`
false; `hasMore = false` is preserved by every event except a filter
reset; a sentinel fire in a `hasMore = false` state changes nothing (no
page increment, no fetch started); and the concrete run 24, 24, 10 ends
with `hasMore = false` on page 3, further sentinel fires being inert. -/
theorem pagination_short_page_stops (s : GalleryState) (data : List Photo)
    (hlen : data.length < 24) :
    (galleryStep s (.fetchOk data)).hasMore = false
      ∧ (∀ s' : GalleryState, s'.hasMore = false → galleryStep s' .sentinel = s')
      ∧ (∀ (s' : GalleryState) (e : GEvent), s'.hasMore = false → e ≠ .reset →
        (galleryStep s' e).hasMore = false)
      ∧ runGallery initialGallery shortPageRun = shortPageFinal
      ∧ galleryStep shortPageFinal .sentinel = shortPageFinal := by
  refine ⟨?_, ?_, ?_, by decide, by decide⟩
  · show (if data.length < 24 then false else s.hasMore) = false
    rw [if_pos hlen]
  · intro s' h
    show (if s'.hasMore = true ∧ s'.loading = false ∧ s'.error = none then _ else s') = s'
    rw [if_neg]
    intro hc
    rw [h] at hc
    exact absurd hc.1 (by decide)
  · intro s' e h he
    cases e with
    | fetchOk data2 =>
      show (if data2.length < 24 then false else s'.hasMore) = false
      by_cases hl : data2.length < 24
      · rw [if_pos hl]
      · rw [if_neg hl]; exact h
    | fetchErr => exact h
    | sentinel =>
      show (if s'.hasMore = true ∧ s'.loading = false ∧ s'.error = none then
          { s' with page := s'.page + 1, loading := true, error := none }
        else s').hasMore = false
      rw [if_neg]
      · exact h
      · intro hc
        rw [h] at hc
        exact absurd hc.1 (by decide)
    | retry => exact h
    | reset => exact absurd rfl he

/-- C7 (witness): the theorem applied to the initial state and a 10-item
page. -/
theorem pagination_short_page_stops_witness :
    (galleryStep initialGallery (.fetchOk (mkPhotos 1 10))).hasMore = false
      ∧ runGallery initialGallery shortPageRun = shortPageFinal :=
  ⟨(pagination_short_page_stops initialGallery (mkPhotos 1 10) (by decide)).1,
    (pagination_short_page_stops initialGallery (mkPhotos 1 10) (by decide)).2.2.2.1⟩

/-- An error state reached by a failed first page fetch. -/
def errorGallery : GalleryState := galleryStep initialGallery .fetchErr

/-- C8 (code divergence): while `error` is set the sentinel is suppressed
(first conjunct, as the spec says), but the Retry button runs
`setPage((p) => p)` — the page value does not change, so the `[page]`
effect does not re-run: no fetch is issued, `error` stays set, and the
state after Retry is stuck exactly as before (remaining conjuncts).  The
claim says loading can resume after retry; in the code the retry action is
inert. -/
theorem gallery_error_retry_inert (s : GalleryState) (e : String)
    (h : s.error = some e) :
    galleryStep s .sentinel = s
      ∧ galleryStep s .retry = s
      ∧ (galleryStep s .retry).error = some e
      ∧ galleryStep (galleryStep s .retry) .sentinel = s := by
  have hs : galleryStep s .sentinel = s := by
    show (if s.hasMore = true ∧ s.loading = false ∧ s.error = none then _ else s) = s
    rw [if_neg]
    intro hc
    rw [h] at hc
    exact absurd hc.2.2 (by simp)
  exact ⟨hs, rfl, h, hs⟩

/-- C8 (witness): the retry-inertness theorem at the concrete error state
reached when the very first page fetch fails. -/
theorem gallery_error_retry_inert_witness :
    galleryStep errorGallery .sentinel = errorGallery
      ∧ galleryStep errorGallery .retry = errorGallery :=
  ⟨(gallery_error_retry_inert errorGallery "Could not load photos" (by decide)).1,
    (gallery_error_retry_inert errorGallery "Could not load photos" (by decide)).2.1⟩

-- ### Route-id parsing (PhotoDetail.tsx, modelled Number() builtin)

/-- Result of JS `Number(string)`: NaN, an infinity, or a finite value
(modelled as a rational; double rounding/overflow is outside the model). -/
inductive JsNum where
  | nan : JsNum
  | inf : JsNum
  | negInf : JsNum
  | val (q : Rat) : JsNum
deriving DecidableEq, Repr

/-- Digit value in the given base (digits beyond the base rejected). -/
def digitValIn (base : Nat) (c : Char) : Option Nat :=
  match hexDigitVal c with
  | some v => if v < base then some v else none
  | none => none

/-- Parse a non-empty digit string in the given base. -/
def parseRadixDigits (base : Nat) (cs : List Char) : Option Nat :=
  if cs.isEmpty then none
  else
    cs.foldl
      (fun acc c =>
        match acc, digitValIn base c with
        | some a, some v => some (a * base + v)
        | _, _ => none)
      (some 0)

/-- Decimal mantissa: digits, optionally a point and more digits; at least
one digit overall (`"12"`, `"12."`, `".5"`, `"1.5"`). -/
def parseDecMantissa (cs : List Char) : Option (Rat × List Char) :=
  let ip := cs.takeWhile Char.isDigit
  let rest1 := cs.dropWhile Char.isDigit
  match rest1 with
  | '.' :: rest2 =>
    let fp := rest2.takeWhile Char.isDigit
    let rest3 := rest2.dropWhile Char.isDigit
    if ip.isEmpty && fp.isEmpty then none
    else some ((digitsToNat ip : Rat) + (digitsToNat fp : Rat) / ((10 : Rat) ^ fp.length), rest3)
  | _ => if ip.isEmpty then none else some ((digitsToNat ip : Rat), rest1)

/-- Exponent digits after the sign. -/
def parseExpDigits (cs : List Char) : Option (Nat × List Char) :=
  let ds := cs.takeWhile Char.isDigit
  if ds.isEmpty then none else some (digitsToNat ds, cs.dropWhile Char.isDigit)

/-- Optionally signed exponent value. -/
def parseSignedExp (cs : List Char) : Option (Int × List Char) :=
  match cs with
  | '+' :: rest => (parseExpDigits rest).map fun nr => ((nr.1 : Int), nr.2)
  | '-' :: rest => (parseExpDigits rest).map fun nr => (-(nr.1 : Int), nr.2)
  | rest => (parseExpDigits rest).map fun nr => ((nr.1 : Int), nr.2)

/-- A decimal literal with optional exponent, consuming the whole input. -/
def parseJsDecimal (cs : List Char) : Option Rat :=
  match parseDecMantissa cs with
  | some (m, rest) =>
    match rest with
    | 'e' :: rest2 =>
      match parseSignedExp rest2 with
      | some (e, rest3) => if rest3.isEmpty then some (m * (10 : Rat) ^ e) else none
      | none => none
    | 'E' :: rest2 =>
      match parseSignedExp rest2 with
      | some (e, rest3) => if rest3.isEmpty then some (m * (10 : Rat) ^ e) else none
      | none => none
    | [] => some m
    | _ => none
  | none => none

/-- A radix-prefixed literal (`0x…`, `0b…`, `0o…`), which admits no sign. -/
def jsRadixNum (base : Nat) (cs : List Char) : JsNum :=
  match parseRadixDigits base cs with
  | some n => .val (n : Rat)
  | none => .nan

/-- An optionally signed decimal or Infinity literal. -/
def jsDecSigned (cs : List Char) : JsNum :=
  let (neg, body) :=
    match cs with
    | '+' :: rest => (false, rest)
    | '-' :: rest => (true, rest)
    | rest => (false, rest)
  if body = "Infinity".data then (if neg then .negInf else .inf)
  else
    match parseJsDecimal body with
    | some q => .val (if neg then -q else q)
    | none => .nan

/-- Modelled from the spec: the platform builtin `Number(string)` used by
PhotoDetail (`const pid = Number(id)`).  Whitespace is trimmed; the empty
remainder is 0; `0x`/`0b`/`0o` literals, optionally signed decimal
literals with fraction and exponent, and `Infinity` are recognised; every
other text is NaN.  Double rounding (underflow to 0, overflow to
Infinity) is outside the model. -/
def jsToNumber (s : String) : JsNum :=
  let t := jsTrim s.data
  if t.isEmpty then .val 0
  else
    match t with
    | '0' :: c :: rest =>
      if c = 'x' ∨ c = 'X' then jsRadixNum 16 rest
      else if c = 'b' ∨ c = 'B' then jsRadixNum 2 rest
      else if c = 'o' ∨ c = 'O' then jsRadixNum 8 rest
      else jsDecSigned t
    | _ => jsDecSigned t

/-- Outcome of the PhotoDetail load effect for a route parameter. -/
inductive DetailAction where
  /-- `setErr("Invalid photo id")` and return: no fetch is attempted. -/
  | showInvalidId : DetailAction
  /-- `fetchPhoto(pid)` is attempted. -/
  | fetch (pid : Rat) : DetailAction
deriving DecidableEq, Repr

/-- The guard of the load effect, PhotoDetail.tsx lines 23-27:
`const pid = Number(id); if (!Number.isFinite(pid) || pid <= 0)
{ setErr("Invalid photo id"); return; } … fetchPhoto(pid)`. -/
def photoDetailLoad (idParam : String) : DetailAction :=
  match jsToNumber idParam with
  | .val q => if q ≤ 0 then .showInvalidId else .fetch q
  | _ => .showInvalidId

/-- C9: a route parameter that is non-numeric (NaN), infinite, or parses
to a non-positive number short-circuits into the error display with no
fetch; a parameter parsing to a finite positive number leads to the
fetch; concretely "abc", "", "0" and "-7" error out and "12" fetches. -/
theorem detail_invalid_id_guard (p : String) :
    (jsToNumber p = .nan → photoDetailLoad p = .showInvalidId)
      ∧ (jsToNumber p = .inf → photoDetailLoad p = .showInvalidId)
      ∧ (jsToNumber p = .negInf → photoDetailLoad p = .showInvalidId)
      ∧ (∀ q : Rat, jsToNumber p = .val q → q ≤ 0 →
        photoDetailLoad p = .showInvalidId)
      ∧ (∀ q : Rat, jsToNumber p = .val q → 0 < q → photoDetailLoad p = .fetch q)
      ∧ photoDetailLoad "abc" = .showInvalidId
      ∧ photoDetailLoad "" = .showInvalidId
      ∧ photoDetailLoad "0" = .showInvalidId
      ∧ photoDetailLoad "-7" = .showInvalidId
      ∧ photoDetailLoad "12" = .fetch 12 := by
  refine ⟨?_, ?_, ?_, ?_, ?_, by decide, by decide, by decide, by decide, by decide⟩
  · intro h
    unfold photoDetailLoad
    rw [h]
  · intro h
    unfold photoDetailLoad
    rw [h]
  · intro h
    unfold photoDetailLoad
    rw [h]
  · intro q h hq
    unfold photoDetailLoad
    rw [h]
    show (if q ≤ 0 then DetailAction.showInvalidId else DetailAction.fetch q)
      = DetailAction.showInvalidId
    rw [if_pos hq]
  · intro q h hq
    unfold photoDetailLoad
    rw [h]
    show (if q ≤ 0 then DetailAction.showInvalidId else DetailAction.fetch q)
      = DetailAction.fetch q
    rw [if_neg (not_le.mpr hq)]

/-- C9 (witness): the guard theorem at the literal parameters "abc" and
"12". -/
theorem detail_invalid_id_guard_witness :
    photoDetailLoad "abc" = DetailAction.showInvalidId
      ∧ photoDetailLoad "12" = DetailAction.fetch 12 :=
  ⟨(detail_invalid_id_guard "abc").2.2.2.2.2.1,
    (detail_invalid_id_guard "12").2.2.2.2.2.2.2.2.2⟩
